import Mathlib

/-!
Verification development for the invoice-qa RAG core.

The Python sources are shallowly embedded:
* `src/pdf_reader.py` — `chunk_text` as a fuel-instrumented loop over `List Char`
  (`none` = the loop did not finish within the given fuel);
* `src/embeddings.py` — `cosine_similarity` over `ℝ`, `get_embedding` as a call
  to an oracle modelling the remote provider;
* `src/query.py` — `answer_question` (scoring, Python's stable descending sort,
  top-k selection, prompt building, chat-completion oracle call);
* `src/app.py` — the "Process Documents" and "Get Answer" Streamlit handlers as
  state transformers over the session state.
-/

namespace InvoiceQA

/-- Python whitespace characters, as recognised by `str.strip()`. -/
def pyWS (c : Char) : Bool :=
  c = ' ' || c = '\t' || c = '\n' || c = '\r' || c = '\x0b' || c = '\x0c'

/-- Python `s.strip()`: drop leading and trailing whitespace. -/
def pyStrip (l : List Char) : List Char :=
  ((l.dropWhile pyWS).reverse.dropWhile pyWS).reverse

/-- Truthiness of `chunk.strip()` in Python: the stripped text is non-empty. -/
def hasContent (l : List Char) : Bool :=
  !(pyStrip l).isEmpty

/-- Python slice `l[a:b]` with full slice semantics (negative indices wrap,
    out-of-range indices clamp). -/
def pySlice (l : List Char) (a b : Int) : List Char :=
  let n : Int := l.length
  let a2 : Nat := (if a < 0 then max (n + a) 0 else min a n).toNat
  let b2 : Nat := (if b < 0 then max (n + b) 0 else min b n).toNat
  (l.take b2).drop a2

/-- The `while start < len(text)` loop of `chunk_text` (src/pdf_reader.py,
    lines 22–29), instrumented with fuel; `none` means the loop has not
    terminated within `fuel` iterations. Each iteration slices
    `text[start:start+chunk_size]`, appends it when its stripped content is
    non-empty, and advances `start` by `chunk_size - overlap`. -/
def chunkGo (text : List Char) (cs ov : Int) :
    Nat → Int → List (List Char) → Option (List (List Char))
  | 0, start, acc => if start < (text.length : Int) then none else some acc
  | fuel + 1, start, acc =>
    if start < (text.length : Int) then
      chunkGo text cs ov fuel (start + (cs - ov))
        (if hasContent (pySlice text start (start + cs)) then
           acc ++ [pySlice text start (start + cs)]
         else acc)
    else some acc

/-- The function `chunk_text(text, chunk_size=500, overlap=50)` from src/pdf_reader.py:
    run the loop from `start = 0` with an empty accumulator. -/
def chunk_text (text : List Char) (chunk_size overlap : Int) (fuel : Nat) :
    Option (List (List Char)) :=
  chunkGo text chunk_size overlap fuel 0 []

/-- Modelled from the spec (§4.1): slide a window of `cs` characters whose
    start advances by `cs - ov` each step, emit each window whose trimmed
    content is non-empty, and stop once the start reaches or exceeds the
    text length. Only meaningful for `0 ≤ ov < cs`, which also justifies
    termination. -/
def chunksSpec (text : List Char) (cs ov : Int) (h1 : 0 ≤ ov) (h2 : ov < cs)
    (start : Nat) : List (List Char) :=
  if _h : start < text.length then
    (if hasContent (pySlice text (start : Int) ((start : Int) + cs)) then
       [pySlice text (start : Int) ((start : Int) + cs)]
     else [])
      ++ chunksSpec text cs ov h1 h2 (start + (cs - ov).toNat)
  else []
termination_by text.length - start
decreasing_by
  have hs : 1 ≤ (cs - ov).toNat := by omega
  omega

/-- Text is modelled as a list of characters. -/
abbrev Text := List Char

/-- Oracle for the remote embeddings endpoint: normalised text in, embedding
    vector (or a provider failure) out. -/
abbrev EmbedFn := Text → Except String (List ℝ)

/-- Oracle for the chat-completion endpoint: system message and user prompt
    in, generated answer (or a provider failure) out. -/
abbrev CompleteFn := Text → Text → Except String Text

/-- The function `get_embedding` (src/embeddings.py lines 51–74): replace newlines by
    spaces, then call the remote provider; a provider failure is re-raised
    (modelled by the `Except` error). -/
def get_embedding (e : EmbedFn) (text : Text) : Except String (List ℝ) :=
  e (text.map fun c => if c = '\n' then ' ' else c)

/-- Model of `np.dot` on two equal-length 1-D float arrays: sum of pairwise products. -/
def dot (v w : List ℝ) : ℝ := ((v.zip w).map fun q => q.1 * q.2).sum

/-- Sum of squares of the entries of a vector. -/
def sumSq (v : List ℝ) : ℝ := (v.map fun x => x * x).sum

/-- Model of `np.linalg.norm`: the Euclidean norm. -/
noncomputable def vnorm (v : List ℝ) : ℝ := Real.sqrt (sumSq v)

open Classical in
/-- The function `cosine_similarity` (src/embeddings.py lines 77–100): dot product divided
    by the product of the norms. `np.dot` raises on mismatched 1-D shapes,
    and the function raises `ValueError` on a zero magnitude. -/
noncomputable def cosine_similarity (vec1 vec2 : List ℝ) : Except String ℝ :=
  if vec1.length ≠ vec2.length then .error ("shapes not aligned")
  else if vnorm vec1 * vnorm vec2 = 0 then
    .error ("Cannot calculate similarity for zero-length vectors")
  else .ok (dot vec1 vec2 / (vnorm vec1 * vnorm vec2))

/-- A chunk dict as stored in the session index:
    `{'text', 'source', 'chunk_id', 'embedding'}`. -/
structure StoredChunk where
  text : Text
  source : Text
  chunk_id : Nat
  embedding : List ℝ

/-- The ephemeral `{'chunk': ..., 'score': ...}` dict built during retrieval. -/
structure ScoredChunk where
  chunk : StoredChunk
  score : ℝ

/-- STEP 2 of `answer_question` (src/query.py lines 36–42): score every chunk
    against the query embedding, in corpus order; an exception from
    `cosine_similarity` propagates. -/
noncomputable def retrieveScored (qe : List ℝ) :
    List StoredChunk → Except String (List ScoredChunk)
  | [] => .ok []
  | c :: cs =>
    match cosine_similarity qe c.embedding with
    | .error msg => .error msg
    | .ok s =>
      match retrieveScored qe cs with
      | .error msg => .error msg
      | .ok rest => .ok (⟨c, s⟩ :: rest)

/-- The ordering used by `similarities.sort(key=lambda x: x['score'],
    reverse=True)`: `a` may appear no later than `b` exactly when `a`'s score
    is at least `b`'s. -/
def descRel (a b : ScoredChunk) : Prop := b.score ≤ a.score

noncomputable instance : DecidableRel descRel := fun _ _ => Real.decidableLE _ _

instance : IsTotal ScoredChunk descRel := ⟨fun a b => le_total b.score a.score⟩

instance : IsTrans ScoredChunk descRel := ⟨fun _ _ _ h1 h2 => le_trans h2 h1⟩

/-- STEP 3 of `answer_question` (src/query.py line 45): Python's `list.sort`
    is stable, and with `reverse=True` it stably sorts by descending key;
    this is insertion sort with `descRel`. -/
noncomputable def sortScored (l : List ScoredChunk) : List ScoredChunk :=
  List.insertionSort descRel l

/-- The retrieval phase of `answer_question` (STEP 2 and STEP 3, src/query.py
    lines 36–46), with STEP 1's query embedding already obtained: score every
    chunk, sort by descending score, keep the first `top_k`. -/
noncomputable def retrieve (qe : List ℝ) (all_chunks : List StoredChunk)
    (top_k : Nat) : Except String (List ScoredChunk) :=
  (retrieveScored qe all_chunks).map fun sims => (sortScored sims).take top_k

/-- Separator joining the top chunks into the context (src/query.py line 49). -/
def contextSep : Text := ("\n\n---\n\n").toList

/-- The system message of the chat call (src/query.py line 66). -/
def systemMessage : Text :=
  ("You are a helpful assistant that answers questions based only on the provided context. Be concise and accurate.").toList

/-- Leading part of the f-string prompt (src/query.py line 53). -/
def promptHead : Text :=
  ("Answer the question using the context below. If the context doesn't explicitly contain the answer but you can reasonably infer it from the information provided (like determining if a food item is vegetarian based on its name), provide the answer and note that it's an inference.\n\nContext:\n").toList

/-- The full user prompt of src/query.py lines 53–60. -/
def buildPrompt (context question : Text) : Text :=
  promptHead ++ context ++ ("\n\nQuestion: ").toList ++ question
    ++ ("\n\nAnswer:").toList

/-- The function `answer_question(question, all_chunks, top_k=3)` (src/query.py
    lines 19–74): embed the question, score all chunks, stable-sort by
    descending score, keep the first `top_k`, join their texts into the
    context, build the prompt and call the chat-completion provider. -/
noncomputable def answer_question (e : EmbedFn) (cf : CompleteFn)
    (question : Text) (all_chunks : List StoredChunk) (top_k : Nat) :
    Except String Text :=
  match get_embedding e question with
  | .error msg => .error msg
  | .ok question_embedding =>
    match retrieveScored question_embedding all_chunks with
    | .error msg => .error msg
    | .ok similarities =>
      let top_chunks := (sortScored similarities).take top_k
      let context :=
        List.intercalate contextSep (top_chunks.map fun i => i.chunk.text)
      cf systemMessage (buildPrompt context question)

/-- Streamlit session state relevant to the handlers: the two counters and
    the optional `chunks` key (absent until a first successful ingestion). -/
structure SessionState where
  query_count : Nat
  uploaded_count : Nat
  chunks : Option (List StoredChunk)

def MAX_QUERIES_PER_SESSION : Nat := 10

def MAX_FILES_PER_UPLOAD : Nat := 3

def MAX_FILE_SIZE_MB : Nat := 5

def MAX_CHUNKS_TOTAL : Nat := 50

/-- An uploaded file after text extraction: name, size in bytes, and the text
    `extract_text_from_pdf` produced for it (the extractor itself is an
    external collaborator; its output is an input here). -/
structure UploadedFile where
  name : Text
  size : Nat
  text : Text

/-- A chunk dict before embedding: `{'text', 'source', 'chunk_id'}`. -/
structure PendingChunk where
  text : Text
  source : Text
  chunk_id : Nat

/-- The per-file part of the ingestion loop (src/app.py lines 77–102): skip a
    file whose extracted text is empty or whose stripped text is shorter than
    50 characters; otherwise chunk it with the default parameters and tag
    each chunk with the file name and its emission index. Fuel
    `f.text.length` always suffices for the default configuration
    (`chunk_text` with stride `450`). -/
def fileChunks (f : UploadedFile) : List PendingChunk :=
  if f.text.isEmpty || (pyStrip f.text).length < 50 then []
  else
    ((chunk_text f.text 500 50 f.text.length).getD []).enum.map fun p =>
      ⟨p.2, f.name, p.1⟩

/-- The list `all_chunks` accumulated over the whole upload batch. -/
def collectChunks (files : List UploadedFile) : List PendingChunk :=
  (files.map fileChunks).flatten

/-- The embedding loop (src/app.py lines 116–119): embed each chunk in order;
    the first provider failure aborts the whole loop. -/
def embedBatch (e : EmbedFn) : List PendingChunk → Except String (List StoredChunk)
  | [] => .ok []
  | c :: cs =>
    match get_embedding e c.text with
    | .error msg => .error msg
    | .ok v =>
      match embedBatch e cs with
      | .error msg => .error msg
      | .ok rest => .ok (⟨c.text, c.source, c.chunk_id, v⟩ :: rest)

/-- Outcome reported by the "Process Documents" handler. -/
inductive ProcessResult where
  | uploadLimit
  | noFiles
  | tooManyFiles
  | oversized (names : List Text)
  | tooManyChunks (n : Nat)
  | noContent
  | embedFailed (msg : String)
  | success (nFiles nChunks : Nat)

/-- The file-size guard `size_mb = f.size / (1024 * 1024); size_mb > 5` of
    src/app.py lines 64–69, stated over exact integer arithmetic:
    `f.size / 1024² > 5` holds exactly when `f.size > 5 · 1024²`. -/
def oversizedFiles (files : List UploadedFile) : List UploadedFile :=
  files.filter fun f => MAX_FILE_SIZE_MB * (1024 * 1024) < f.size

/-- The "Process Documents" handler (src/app.py lines 43–124) as a state
    transformer. Guard order follows the code: upload-limit gate (disabled
    button and `None` uploader), empty upload, file-count check, file-size
    check, chunk collection with per-file skipping, total-chunk guard on the
    new batch alone, empty-batch guard, then the embedding loop; only after
    every chunk embeds successfully are `st.session_state.chunks` (replaced,
    not appended to) and `uploaded_count` updated. -/
def processDocuments (e : EmbedFn) (st : SessionState)
    (files : List UploadedFile) : ProcessResult × SessionState :=
  if MAX_FILES_PER_UPLOAD ≤ st.uploaded_count then (.uploadLimit, st)
  else if files.isEmpty then (.noFiles, st)
  else if MAX_FILES_PER_UPLOAD < files.length then (.tooManyFiles, st)
  else if !(oversizedFiles files).isEmpty then
    (.oversized ((oversizedFiles files).map fun f => f.name), st)
  else if MAX_CHUNKS_TOTAL < (collectChunks files).length then
    (.tooManyChunks (collectChunks files).length, st)
  else if (collectChunks files).isEmpty then (.noContent, st)
  else
    match embedBatch e (collectChunks files) with
    | .error msg => (.embedFailed msg, st)
    | .ok embedded =>
      (.success files.length (collectChunks files).length,
       { st with chunks := some embedded,
                 uploaded_count := st.uploaded_count + files.length })

/-- Outcome reported by the "Get Answer" handler. -/
inductive AnswerOutcome where
  | notReady
  | limitReached
  | emptyQuestion
  | tooShort
  | answered (a : Text)
  | providerFailed (msg : String)

/-- The "Get Answer" handler (src/app.py lines 130–171) as a state
    transformer: requires a processed corpus (`chunks` key present), the
    query limit not reached, a non-empty question whose stripped length is at
    least 5; it then increments `query_count` BEFORE calling
    `answer_question`, so the counter is bumped even when the downstream
    provider call fails. -/
noncomputable def getAnswer (e : EmbedFn) (cf : CompleteFn)
    (st : SessionState) (question : Text) : AnswerOutcome × SessionState :=
  match st.chunks with
  | none => (.notReady, st)
  | some chunks =>
    if MAX_QUERIES_PER_SESSION ≤ st.query_count then (.limitReached, st)
    else if question.isEmpty then (.emptyQuestion, st)
    else if (pyStrip question).length < 5 then (.tooShort, st)
    else
      match answer_question e cf question chunks 3 with
      | .ok a => (.answered a, { st with query_count := st.query_count + 1 })
      | .error msg =>
        (.providerFailed msg, { st with query_count := st.query_count + 1 })

/-! ## Lemmas about the chunker -/

/-- With a non-positive stride the loop guard stays true forever: no amount
    of fuel makes `chunkGo` finish on a non-empty text when `start ≤ 0`. -/
theorem chunkGo_none (text : List Char) (cs ov : Int) (hcfg : cs ≤ ov)
    (hlen : 0 < text.length) :
    ∀ (fuel : Nat) (start : Int) (acc : List (List Char)), start ≤ 0 →
      chunkGo text cs ov fuel start acc = none := by
  intro fuel
  induction fuel with
  | zero =>
    intro start acc hs
    rw [chunkGo, if_pos (by omega : start < (text.length : Int))]
  | succ n ih =>
    intro start acc hs
    rw [chunkGo, if_pos (by omega : start < (text.length : Int))]
    exact ih _ _ (by omega)

/-- Running the loop from a `Nat` start position with enough fuel yields
    exactly the accumulator followed by the spec's sliding windows. -/
theorem chunkGo_eq_chunksSpec (text : List Char) (cs ov : Int)
    (h1 : 0 ≤ ov) (h2 : ov < cs) :
    ∀ (fuel : Nat) (start : Nat) (acc : List (List Char)),
      text.length - start ≤ fuel →
      chunkGo text cs ov fuel (start : Int) acc
        = some (acc ++ chunksSpec text cs ov h1 h2 start) := by
  intro fuel
  induction fuel with
  | zero =>
    intro start acc hfuel
    rw [chunkGo, if_neg (by omega : ¬ ((start : Int) < (text.length : Int))),
      chunksSpec, dif_neg (by omega : ¬ start < text.length)]
    simp
  | succ n ih =>
    intro start acc hfuel
    by_cases hlt : start < text.length
    · rw [chunkGo, if_pos (by omega : (start : Int) < (text.length : Int)),
        chunksSpec, dif_pos hlt]
      have hstep : (start : Int) + (cs - ov)
          = ((start + (cs - ov).toNat : Nat) : Int) := by push_cast; omega
      rw [hstep, ih (start + (cs - ov).toNat) _ (by omega)]
      cases hasContent (pySlice text (start : Int) ((start : Int) + cs)) <;> simp
    · rw [chunkGo, if_neg (by omega : ¬ ((start : Int) < (text.length : Int))),
        chunksSpec, dif_neg hlt]
      simp

/-- A slice `l[0:b]` with `b` past the end is the whole list. -/
theorem pySlice_all (l : List Char) (b : Int) (hb0 : 0 ≤ b)
    (hb : (l.length : Int) ≤ b) : pySlice l 0 b = l := by
  simp only [pySlice]
  rw [if_neg (by omega : ¬ ((0 : Int) < 0)), if_neg (by omega : ¬ b < 0),
    min_eq_left (by omega : (0 : Int) ≤ (l.length : Int)),
    min_eq_right hb]
  simp

/-- Claim C2, amended. For every configuration with
    `0 ≤ overlap < chunk_size` and fuel at least the text length, the chunker
    terminates and produces exactly the spec's sliding windows: start
    positions advance by `chunk_size - overlap` per step, each window whose
    stripped content is non-empty is emitted, and the loop stops once the
    start reaches or exceeds the text length. The degenerate clause holds for
    text no longer than the stride `chunk_size - overlap` (not, as claimed,
    for all text shorter than `chunk_size`): such text yields exactly one
    chunk if its stripped content is non-empty, else zero chunks. -/
theorem C2_chunker_sliding_window (text : List Char) (cs ov : Int)
    (h1 : 0 ≤ ov) (h2 : ov < cs) (fuel : Nat) (hfuel : text.length ≤ fuel) :
    chunk_text text cs ov fuel = some (chunksSpec text cs ov h1 h2 0) ∧
      ((text.length : Int) ≤ cs - ov →
        chunksSpec text cs ov h1 h2 0
          = if hasContent text then [text] else []) := by
  constructor
  · have h0 := chunkGo_eq_chunksSpec text cs ov h1 h2 fuel 0 [] (by omega)
    simpa [chunk_text] using h0
  · intro hdeg
    by_cases hlen : 0 < text.length
    · rw [chunksSpec, dif_pos hlen]
      have hwin : pySlice text ((0 : Nat) : Int) (((0 : Nat) : Int) + cs)
          = text := by
        have := pySlice_all text (((0 : Nat) : Int) + cs) (by omega) (by omega)
        simpa using this
      rw [chunksSpec, dif_neg (by omega : ¬ 0 + (cs - ov).toNat < text.length)]
      rw [hwin]
      cases hasContent text <;> simp
    · rw [chunksSpec, dif_neg (by omega : ¬ 0 < text.length)]
      have htext : text = [] := List.length_eq_zero.mp (by omega)
      subst htext
      rfl

/-- Witness for C2 at a concrete configuration: `chunk_size = 5`,
    `overlap = 1`, fuel 2, on the 2-character text `"hi"`. -/
theorem C2_chunker_sliding_window_witness :
    chunk_text (("hi").toList) 5 1 2
        = some (chunksSpec (("hi").toList) 5 1 (by decide) (by decide) 0)
      ∧ (((("hi").toList).length : Int) ≤ 5 - 1 →
          chunksSpec (("hi").toList) 5 1 (by decide) (by decide) 0
            = if hasContent (("hi").toList) then [("hi").toList] else []) :=
  C2_chunker_sliding_window (("hi").toList) 5 1 (by decide) (by decide) 2
    (by decide)

/-- Claim C2 as stated is false at a concrete input: with `chunk_size = 5`,
    `overlap = 3` (a configuration with `0 ≤ overlap < chunk_size`) and the
    4-character text `"aaaa"` — shorter than `chunk_size` and with non-empty
    stripped content — the chunker emits TWO chunks, not exactly one. -/
theorem C2_counterexample :
    chunk_text (("aaaa").toList) 5 3 4
        = some [("aaaa").toList, ("aa").toList]
      ∧ ((("aaaa").toList.length : Int) < 5
      ∧ hasContent (("aaaa").toList) = true) := by
  refine ⟨by decide, by decide, by decide⟩

/-- Claim C3: the claim matches the spec's stated intent, but the code has no
    validation at all. At `chunk_size = 2 = overlap` on the non-empty text
    `"hello"`, the `while` loop's start position never advances, so the loop
    never terminates (no fuel suffices) and no `InvalidConfiguration` error
    is ever produced. -/
theorem C3_no_validation_nontermination :
    ∀ fuel : Nat, chunk_text (("hello").toList) 2 2 fuel = none := fun fuel =>
  chunkGo_none _ 2 2 le_rfl (by decide) fuel 0 [] le_rfl

/-! ## Lemmas about the ingestion handler -/

/-- The embedding loop preserves the batch length. -/
theorem embedBatch_length (e : EmbedFn) :
    ∀ (l : List PendingChunk) (r : List StoredChunk),
      embedBatch e l = .ok r → r.length = l.length := by
  intro l
  induction l with
  | nil => intro r h; cases h; rfl
  | cons c cs ih =>
    intro r h
    unfold embedBatch at h
    cases hv : get_embedding e c.text with
    | error msg => rw [hv] at h; cases h
    | ok v =>
      rw [hv] at h
      cases hr : embedBatch e cs with
      | error msg => rw [hr] at h; cases h
      | ok rest =>
        rw [hr] at h
        cases h
        simp [ih rest hr]

/-- Claim C6: if embedding any chunk of the pending batch fails, the handler
    reports the failure and commits nothing — the session state, including
    any previously committed index, is unchanged. -/
theorem C6_no_partial_commit (e : EmbedFn) (st : SessionState)
    (files : List UploadedFile) (msg : String) (st2 : SessionState)
    (h : processDocuments e st files = (.embedFailed msg, st2)) :
    st2 = st := by
  unfold processDocuments at h
  repeat' split at h
  all_goals injection h with h1 h2
  all_goals try cases h1
  all_goals exact h2.symm

/-- Witness for C6: a provider that always fails, applied to a fresh session
    and one 60-character file; the resulting state equals the input state. -/
theorem C6_no_partial_commit_witness :
    (processDocuments (fun _ => .error ("boom")) ⟨0, 0, none⟩
        [⟨("f.pdf").toList, 100, List.replicate 60 'a'⟩]).2
      = (⟨0, 0, none⟩ : SessionState) :=
  C6_no_partial_commit (fun _ => .error ("boom")) ⟨0, 0, none⟩
    [⟨("f.pdf").toList, 100, List.replicate 60 'a'⟩] "boom" _ rfl

/-- Claim C9, amended: a successful ingestion REPLACES the session index with
    the new batch's embedded chunks (and bumps the upload counter); chunks
    committed by earlier ingestions do not carry over. -/
theorem C9_success_replaces_index (e : EmbedFn) (st : SessionState)
    (files : List UploadedFile) (n m : Nat) (st2 : SessionState)
    (h : processDocuments e st files = (.success n m, st2)) :
    ∃ embedded, embedBatch e (collectChunks files) = .ok embedded
      ∧ st2.chunks = some embedded
      ∧ st2.uploaded_count = st.uploaded_count + files.length
      ∧ st2.query_count = st.query_count := by
  unfold processDocuments at h
  repeat' split at h
  all_goals injection h with h1 h2
  all_goals try cases h1
  all_goals subst h2
  refine ⟨_, ?_, rfl, rfl, rfl⟩
  assumption

/-- Witness for C9's amended theorem: a concrete successful ingestion whose
    result index is exactly the embedded batch. -/
theorem C9_success_replaces_index_witness :
    ∃ embedded,
      embedBatch (fun _ => .ok [])
          (collectChunks [⟨("f.pdf").toList, 100, List.replicate 60 'a'⟩])
        = .ok embedded
      ∧ (⟨0, 1, some [⟨List.replicate 60 'a', ("f.pdf").toList, 0, []⟩]⟩ :
          SessionState).chunks = some embedded
      ∧ (1 : Nat) = 0 + 1
      ∧ (0 : Nat) = 0 :=
  C9_success_replaces_index (fun _ => .ok []) ⟨0, 0, none⟩
    [⟨("f.pdf").toList, 100, List.replicate 60 'a'⟩] 1 1
    ⟨0, 1, some [⟨List.replicate 60 'a', ("f.pdf").toList, 0, []⟩]⟩ rfl

/-- Claim C9 as stated is false at a concrete input: after a first successful
    ingestion of "a.pdf" (one committed chunk with source "a.pdf"), a second
    successful ingestion of "b.pdf" leaves an index whose only source is
    "b.pdf" — the chunk committed by the earlier ingestion is gone. -/
theorem C9_counterexample :
    processDocuments (fun _ => .ok []) ⟨0, 0, none⟩
        [⟨("a.pdf").toList, 100, List.replicate 60 'a'⟩]
      = (.success 1 1, ⟨0, 1, some [⟨List.replicate 60 'a', ("a.pdf").toList, 0, []⟩]⟩)
    ∧ processDocuments (fun _ => .ok [])
        ⟨0, 1, some [⟨List.replicate 60 'a', ("a.pdf").toList, 0, []⟩]⟩
          [⟨("b.pdf").toList, 100, List.replicate 60 'b'⟩]
      = (.success 1 1, ⟨0, 2, some [⟨List.replicate 60 'b', ("b.pdf").toList, 0, []⟩]⟩)
    ∧ (([⟨List.replicate 60 'b', ("b.pdf").toList, 0, []⟩] :
          List StoredChunk).map fun c => c.source) = [("b.pdf").toList]
    ∧ ("a.pdf").toList ≠ ("b.pdf").toList :=
  ⟨rfl, rfl, rfl, by decide⟩

/-- Claim C5, amended: the guard compares only the PENDING batch against
    `MAX_CHUNKS_TOTAL` — when the pending batch alone exceeds the limit (and
    the earlier guards pass) it is rejected wholesale with the index left
    untouched; the invariant `chunks_total ≤ MAX_CHUNKS_TOTAL` nevertheless
    holds after every successful ingestion, because a success replaces the
    index with the (at most 50 chunk) batch rather than appending to it. -/
theorem C5_batch_guard_and_invariant :
    (∀ (e : EmbedFn) (st : SessionState) (files : List UploadedFile),
        st.uploaded_count < MAX_FILES_PER_UPLOAD →
        files.isEmpty = false →
        files.length ≤ MAX_FILES_PER_UPLOAD →
        (oversizedFiles files).isEmpty = true →
        MAX_CHUNKS_TOTAL < (collectChunks files).length →
        processDocuments e st files
          = (.tooManyChunks (collectChunks files).length, st))
    ∧ (∀ (e : EmbedFn) (st : SessionState) (files : List UploadedFile)
        (n m : Nat) (st2 : SessionState),
        processDocuments e st files = (.success n m, st2) →
        ∃ l, st2.chunks = some l ∧ l.length ≤ MAX_CHUNKS_TOTAL) := by
  constructor
  · intro e st files h1 h2 h3 h4 h5
    unfold processDocuments
    rw [if_neg (by omega), if_neg (by simp [h2]), if_neg (by omega),
      if_neg (by simp [h4]), if_pos h5]
  · intro e st files n m st2 h
    unfold processDocuments at h
    repeat' split at h
    all_goals injection h with h1 h2
    all_goals try cases h1
    all_goals subst h2
    refine ⟨_, rfl, ?_⟩
    have hlen := embedBatch_length e (collectChunks files) _ (by assumption)
    omega

/-- Witness for C5's amended theorem (invariant part): a concrete successful
    ingestion whose committed index has at most `MAX_CHUNKS_TOTAL` chunks. -/
theorem C5_batch_guard_and_invariant_witness :
    ∃ l, (⟨0, 1, some [⟨List.replicate 60 'a', ("f.pdf").toList, 0, []⟩]⟩ :
        SessionState).chunks = some l ∧ l.length ≤ MAX_CHUNKS_TOTAL :=
  C5_batch_guard_and_invariant.2 (fun _ => .ok []) ⟨0, 0, none⟩
    [⟨("f.pdf").toList, 100, List.replicate 60 'a'⟩] 1 1
    ⟨0, 1, some [⟨List.replicate 60 'a', ("f.pdf").toList, 0, []⟩]⟩ rfl

/-- Claim C5 as stated is false at a concrete input: with 50 chunks already
    committed, ingesting a file yielding 1 more chunk makes batch + existing
    = 51 > `MAX_CHUNKS_TOTAL`, yet the handler ACCEPTS the batch (and
    replaces the index) instead of rejecting it wholesale. -/
theorem C5_counterexample :
    processDocuments (fun _ => .ok [])
        ⟨0, 1, some (List.replicate 50
          ⟨List.replicate 60 'a', ("a.pdf").toList, 0, []⟩)⟩
        [⟨("b.pdf").toList, 100, List.replicate 60 'b'⟩]
      = (.success 1 1, ⟨0, 2, some [⟨List.replicate 60 'b', ("b.pdf").toList, 0, []⟩]⟩)
    ∧ MAX_CHUNKS_TOTAL < 50 + 1 :=
  ⟨rfl, by decide⟩

/-! ## Lemmas about the query handler -/

/-- Claim C7: an accepted query (corpus present, quota not exhausted,
    non-empty question of stripped length at least 5) increments the session
    query counter exactly once, whatever the embedding and completion oracles
    do — in particular also when a downstream provider call fails, since the
    counter is bumped before `answer_question` runs. -/
theorem C7_counter_incremented_at_acceptance (e : EmbedFn) (cf : CompleteFn)
    (st : SessionState) (question : Text) (chunks : List StoredChunk)
    (hc : st.chunks = some chunks)
    (hq : st.query_count < MAX_QUERIES_PER_SESSION)
    (hne : question.isEmpty = false)
    (hlen : ¬ (pyStrip question).length < 5) :
    ((getAnswer e cf st question).2).query_count = st.query_count + 1 := by
  unfold getAnswer
  rw [hc]
  dsimp only
  rw [if_neg (by omega), if_neg (by simp [hne]), if_neg hlen]
  cases answer_question e cf question chunks 3 <;> rfl

/-- Witness for C7: a concrete accepted query whose completion provider
    fails; the counter is still incremented from 0 to 1. -/
theorem C7_counter_incremented_at_acceptance_witness :
    ((getAnswer (fun _ => .ok [1]) (fun _ _ => .error ("down"))
        ⟨0, 1, some [⟨("x").toList, ("s").toList, 0, []⟩]⟩
        (("hello").toList)).2).query_count = 0 + 1 :=
  C7_counter_incremented_at_acceptance (fun _ => .ok [1])
    (fun _ _ => .error ("down"))
    ⟨0, 1, some [⟨("x").toList, ("s").toList, 0, []⟩]⟩ (("hello").toList)
    [⟨("x").toList, ("s").toList, 0, []⟩] rfl (by decide) (by decide)
    (by decide)

/-- Claim C10: a submitted question whose stripped length is below 5 is
    rejected with the session state unchanged — the query counter is not
    incremented — and the outcome does not depend on the provider oracles at
    all, so no provider call is made. -/
theorem C10_short_question_no_quota (e : EmbedFn) (cf : CompleteFn)
    (st : SessionState) (question : Text) (chunks : List StoredChunk)
    (hc : st.chunks = some chunks)
    (hq : st.query_count < MAX_QUERIES_PER_SESSION)
    (hne : question.isEmpty = false)
    (hlen : (pyStrip question).length < 5) :
    getAnswer e cf st question = (.tooShort, st) := by
  unfold getAnswer
  rw [hc]
  dsimp only
  rw [if_neg (by omega), if_neg (by simp [hne]), if_pos hlen]

/-- Witness for C10: the two-character question "hi" is rejected without
    touching the state, for an arbitrary concrete pair of oracles. -/
theorem C10_short_question_no_quota_witness :
    getAnswer (fun _ => .ok [1]) (fun _ _ => .ok (("yes").toList))
        ⟨0, 1, some [⟨("x").toList, ("s").toList, 0, []⟩]⟩ (("hi").toList)
      = (.tooShort, ⟨0, 1, some [⟨("x").toList, ("s").toList, 0, []⟩]⟩) :=
  C10_short_question_no_quota (fun _ => .ok [1])
    (fun _ _ => .ok (("yes").toList))
    ⟨0, 1, some [⟨("x").toList, ("s").toList, 0, []⟩]⟩ (("hi").toList)
    [⟨("x").toList, ("s").toList, 0, []⟩] rfl (by decide) (by decide)
    (by decide)

/-! ## Concrete evaluations of cosine similarity -/

/-- The Euclidean norm of a one-entry vector. -/
theorem vnorm_single (x : ℝ) : vnorm [x] = |x| := by
  simp [vnorm, sumSq, Real.sqrt_mul_self_eq_abs]

/-- Cosine similarity of two non-zero one-entry vectors. -/
theorem cosine_similarity_single (x y : ℝ) (hx : x ≠ 0) (hy : y ≠ 0) :
    cosine_similarity [x] [y] = .ok (x * y / (|x| * |y|)) := by
  unfold cosine_similarity
  rw [if_neg (by simp), vnorm_single, vnorm_single,
    if_neg (by simp [abs_eq_zero, hx, hy])]
  simp [dot]

/-! ## Stability of the descending sort (C1) -/

/-- Pair every element with its position, starting at `n`. -/
def idxFrom (n : Nat) : List ScoredChunk → List (Nat × ScoredChunk)
  | [] => []
  | x :: xs => (n, x) :: idxFrom (n + 1) xs

/-- The relation `descRel` lifted to position-indexed elements. -/
def descRelIdx (a b : Nat × ScoredChunk) : Prop := descRel a.2 b.2

/-- Strict lexicographic order "higher score first; earlier original
    position first on exact score ties": the characterisation of a STABLE
    descending sort. -/
def stableDescRel (a b : Nat × ScoredChunk) : Prop :=
  b.2.score < a.2.score ∨ (a.2.score = b.2.score ∧ a.1 ≤ b.1)

noncomputable instance : DecidableRel descRelIdx :=
  fun _ _ => Real.decidableLE _ _

noncomputable instance : DecidableRel stableDescRel :=
  fun _ _ => Classical.propDecidable _

instance : IsTotal (Nat × ScoredChunk) stableDescRel := by
  constructor
  intro a b
  rcases lt_trichotomy a.2.score b.2.score with h | h | h
  · exact Or.inr (Or.inl h)
  · rcases Nat.le_total a.1 b.1 with h2 | h2
    · exact Or.inl (Or.inr ⟨h, h2⟩)
    · exact Or.inr (Or.inr ⟨h.symm, h2⟩)
  · exact Or.inl (Or.inl h)

instance : IsTrans (Nat × ScoredChunk) stableDescRel := by
  constructor
  intro a b c hab hbc
  rcases hab with h1 | ⟨h1, h1i⟩
  · rcases hbc with h2 | ⟨h2, h2i⟩
    · exact Or.inl (lt_trans h2 h1)
    · exact Or.inl (h2 ▸ h1)
  · rcases hbc with h2 | ⟨h2, h2i⟩
    · exact Or.inl (h1.symm ▸ h2)
    · exact Or.inr ⟨h1.trans h2, le_trans h1i h2i⟩

/-- On a list whose positions all exceed `x`'s, inserting by the stable
    lexicographic order agrees with inserting by score alone. -/
theorem orderedInsert_stable_eq (x : Nat × ScoredChunk) :
    ∀ l : List (Nat × ScoredChunk), (∀ y ∈ l, x.1 < y.1) →
      List.orderedInsert stableDescRel x l
        = List.orderedInsert descRelIdx x l := by
  intro l
  induction l with
  | nil => intro _; rfl
  | cons y ys ih =>
    intro hx
    have hxy : x.1 < y.1 := hx y (List.mem_cons_self y ys)
    by_cases hd : descRelIdx x y
    · have hs : stableDescRel x y := by
        rcases lt_or_eq_of_le hd with h | h
        · exact Or.inl h
        · exact Or.inr ⟨h.symm, le_of_lt hxy⟩
      rw [List.orderedInsert, List.orderedInsert, if_pos hd, if_pos hs]
    · have hs : ¬ stableDescRel x y := by
        intro hcon
        rcases hcon with h | ⟨h, _⟩
        · exact hd (le_of_lt h)
        · exact hd (le_of_eq h.symm)
      rw [List.orderedInsert, List.orderedInsert, if_neg hd, if_neg hs,
        ih (fun z hz => hx z (List.mem_cons_of_mem _ hz))]

/-- On a position-sorted list, the stable lexicographic sort agrees with the
    sort by score alone — this is exactly stability of the latter. -/
theorem insertionSort_stable_eq :
    ∀ l : List (Nat × ScoredChunk),
      l.Pairwise (fun a b => a.1 < b.1) →
      List.insertionSort stableDescRel l
        = List.insertionSort descRelIdx l := by
  intro l
  induction l with
  | nil => intro _; rfl
  | cons x xs ih =>
    intro hp
    rw [List.insertionSort, List.insertionSort,
      ih (List.pairwise_cons.mp hp).2]
    exact orderedInsert_stable_eq x _ fun y hy =>
      (List.pairwise_cons.mp hp).1 y
        ((List.perm_insertionSort descRelIdx xs).subset hy)

theorem orderedInsert_map_snd (x : Nat × ScoredChunk) :
    ∀ l : List (Nat × ScoredChunk),
      (List.orderedInsert descRelIdx x l).map Prod.snd
        = List.orderedInsert descRel x.2 (l.map Prod.snd) := by
  intro l
  induction l with
  | nil => rfl
  | cons y ys ih =>
    by_cases hd : descRelIdx x y
    · have hd2 : descRel x.2 y.2 := hd
      rw [List.orderedInsert, if_pos hd, List.map_cons, List.map_cons,
        List.orderedInsert, if_pos hd2]
    · have hd2 : ¬ descRel x.2 y.2 := hd
      rw [List.orderedInsert, if_neg hd, List.map_cons, List.map_cons,
        List.orderedInsert, if_neg hd2, ih]

theorem insertionSort_map_snd :
    ∀ l : List (Nat × ScoredChunk),
      (List.insertionSort descRelIdx l).map Prod.snd
        = List.insertionSort descRel (l.map Prod.snd) := by
  intro l
  induction l with
  | nil => rfl
  | cons x xs ih =>
    rw [List.insertionSort, List.map_cons, List.insertionSort,
      orderedInsert_map_snd x _, ih]

theorem idxFrom_map_snd :
    ∀ (n : Nat) (l : List ScoredChunk), (idxFrom n l).map Prod.snd = l := by
  intro n l
  induction l generalizing n with
  | nil => rfl
  | cons x xs ih => rw [idxFrom, List.map_cons, ih]

theorem idxFrom_ge :
    ∀ (n : Nat) (l : List ScoredChunk) (y : Nat × ScoredChunk),
      y ∈ idxFrom n l → n ≤ y.1 := by
  intro n l
  induction l generalizing n with
  | nil => intro y hy; simp [idxFrom] at hy
  | cons x xs ih =>
    intro y hy
    rw [idxFrom] at hy
    rcases List.mem_cons.mp hy with h | h
    · cases h; exact le_rfl
    · exact le_trans (Nat.le_succ n) (ih (n + 1) y h)

theorem idxFrom_pairwise (l : List ScoredChunk) :
    ∀ n, (idxFrom n l).Pairwise (fun a b => a.1 < b.1) := by
  induction l with
  | nil => intro n; exact List.Pairwise.nil
  | cons x xs ih =>
    intro n
    rw [idxFrom]
    refine List.Pairwise.cons ?_ (ih (n + 1))
    intro y hy
    exact lt_of_lt_of_le (Nat.lt_succ_self n) (idxFrom_ge (n + 1) xs y hy)

/-- The sort performed by `answer_question` IS the stable descending sort:
    it equals the lexicographic "higher score first, earlier position on
    ties" sort of the position-indexed list, with the indices erased. -/
theorem sortScored_eq_stable (l : List ScoredChunk) :
    sortScored l
      = (List.insertionSort stableDescRel (idxFrom 0 l)).map Prod.snd := by
  rw [insertionSort_stable_eq (idxFrom 0 l) (idxFrom_pairwise l 0),
    insertionSort_map_snd, idxFrom_map_snd]
  rfl

theorem retrieveScored_length (qe : List ℝ) :
    ∀ (l : List StoredChunk) (r : List ScoredChunk),
      retrieveScored qe l = .ok r → r.length = l.length := by
  intro l
  induction l with
  | nil => intro r h; cases h; rfl
  | cons c cs ih =>
    intro r h
    unfold retrieveScored at h
    split at h
    · cases h
    rename_i s hcos
    split at h
    · cases h
    rename_i rest hrest
    cases h
    simp [ih rest hrest]

/-- Claim C1: when scoring succeeds, retrieval returns `.ok` of exactly the
    first `top_k` elements of the stable descending sort of the scored
    corpus (Python's `list.sort` is stable, and `reverse=True` preserves
    stability). The selection (i) is the `top_k`-prefix of the sort of the
    position-indexed scored list by "strictly higher score first, earlier
    corpus position first on exact ties"; (ii) has length
    `min top_k corpus_size`; (iii) is pairwise descending by score; and (iv)
    the indexed sort is pairwise ordered by the stable-descending relation,
    so chunks with exactly equal scores appear in original corpus order. -/
theorem C1_retrieval_topk_stable (qe : List ℝ) (chunks : List StoredChunk)
    (top_k : Nat) (scored : List ScoredChunk)
    (h : retrieveScored qe chunks = .ok scored) :
    retrieve qe chunks top_k
        = .ok (((List.insertionSort stableDescRel (idxFrom 0 scored)).map
            Prod.snd).take top_k)
      ∧ ((sortScored scored).take top_k).length = min top_k chunks.length
      ∧ ((sortScored scored).take top_k).Pairwise descRel
      ∧ (List.insertionSort stableDescRel (idxFrom 0 scored)).Pairwise
          stableDescRel := by
  refine ⟨?_, ?_, ?_, ?_⟩
  · unfold retrieve
    rw [h, ← sortScored_eq_stable]
    rfl
  · rw [List.length_take, sortScored, List.length_insertionSort,
      retrieveScored_length qe chunks scored h]
  · exact List.Pairwise.sublist (List.take_sublist _ _)
      (List.sorted_insertionSort descRel scored)
  · exact List.sorted_insertionSort stableDescRel (idxFrom 0 scored)

theorem cosine_similarity_one_one :
    cosine_similarity [(1 : ℝ)] [(1 : ℝ)] = .ok 1 := by
  rw [cosine_similarity_single 1 1 one_ne_zero one_ne_zero]
  norm_num

/-- One successful scoring step of `retrieveScored`. -/
theorem retrieveScored_cons_ok (qe : List ℝ) (c : StoredChunk)
    (cs : List StoredChunk) (s : ℝ) (rest : List ScoredChunk)
    (hc : cosine_similarity qe c.embedding = .ok s)
    (hr : retrieveScored qe cs = .ok rest) :
    retrieveScored qe (c :: cs) = .ok (⟨c, s⟩ :: rest) := by
  unfold retrieveScored
  rw [hc]
  dsimp only
  rw [hr]

/-- Helper for the C1 witness: scoring a two-chunk corpus whose embeddings
    both equal the query vector, producing an exact score tie. -/
theorem retrieveScored_pair :
    retrieveScored [(1 : ℝ)]
        [⟨("a").toList, ("s").toList, 0, [1]⟩,
         ⟨("b").toList, ("s").toList, 1, [1]⟩]
      = .ok [⟨⟨("a").toList, ("s").toList, 0, [1]⟩, 1⟩,
             ⟨⟨("b").toList, ("s").toList, 1, [1]⟩, 1⟩] :=
  retrieveScored_cons_ok [(1 : ℝ)] ⟨("a").toList, ("s").toList, 0, [1]⟩
    [⟨("b").toList, ("s").toList, 1, [1]⟩] 1
    [⟨⟨("b").toList, ("s").toList, 1, [1]⟩, 1⟩] cosine_similarity_one_one
    (retrieveScored_cons_ok [(1 : ℝ)] ⟨("b").toList, ("s").toList, 1, [1]⟩
      [] 1 [] cosine_similarity_one_one rfl)

/-- Witness for C1 at a two-chunk corpus with exactly tied scores. -/
theorem C1_retrieval_topk_stable_witness :
    retrieve [(1 : ℝ)]
        [⟨("a").toList, ("s").toList, 0, [1]⟩,
         ⟨("b").toList, ("s").toList, 1, [1]⟩] 3
        = .ok (((List.insertionSort stableDescRel (idxFrom 0
            [⟨⟨("a").toList, ("s").toList, 0, [1]⟩, 1⟩,
             ⟨⟨("b").toList, ("s").toList, 1, [1]⟩, 1⟩])).map
              Prod.snd).take 3)
      ∧ ((sortScored [⟨⟨("a").toList, ("s").toList, 0, [1]⟩, 1⟩,
            ⟨⟨("b").toList, ("s").toList, 1, [1]⟩, 1⟩]).take 3).length
          = min 3 ([⟨("a").toList, ("s").toList, 0, [1]⟩,
              ⟨("b").toList, ("s").toList, 1, [1]⟩] :
                List StoredChunk).length
      ∧ ((sortScored [⟨⟨("a").toList, ("s").toList, 0, [1]⟩, 1⟩,
            ⟨⟨("b").toList, ("s").toList, 1, [1]⟩, 1⟩]).take 3).Pairwise
            descRel
      ∧ (List.insertionSort stableDescRel (idxFrom 0
            [⟨⟨("a").toList, ("s").toList, 0, [1]⟩, 1⟩,
             ⟨⟨("b").toList, ("s").toList, 1, [1]⟩, 1⟩])).Pairwise
            stableDescRel :=
  C1_retrieval_topk_stable [(1 : ℝ)]
    [⟨("a").toList, ("s").toList, 0, [1]⟩,
     ⟨("b").toList, ("s").toList, 1, [1]⟩] 3
    [⟨⟨("a").toList, ("s").toList, 0, [1]⟩, 1⟩,
     ⟨⟨("b").toList, ("s").toList, 1, [1]⟩, 1⟩] retrieveScored_pair

/-! ## Empty-corpus behaviour of answer_question (C4) -/

/-- Claim C4, amended: `answer_question` contains no empty-corpus check and
    raises no `EmptyCorpusError`. On an empty corpus it proceeds: the
    question is still embedded (a provider call), and unless that call fails
    the completion provider is called on the prompt built from an EMPTY
    context; its result — an answer, not an error — is returned verbatim.
    (In the app, the ingestion handler never commits an empty index, so this
    code path is unreachable through the UI.) -/
theorem C4_empty_corpus_proceeds (e : EmbedFn) (cf : CompleteFn)
    (question : Text) (top_k : Nat) :
    answer_question e cf question [] top_k
      = match get_embedding e question with
        | .error msg => .error msg
        | .ok _ => cf systemMessage (buildPrompt [] question) := by
  unfold answer_question
  cases get_embedding e question
  · rfl
  · simp [retrieveScored, sortScored, List.intercalate]

set_option maxRecDepth 4000 in
/-- Claim C4 as stated is false at a concrete input: with stub providers,
    calling retrieval-and-answering on the EMPTY corpus does not fail — an
    answer is produced (from an empty context), and the provider pipeline is
    exercised. -/
theorem C4_counterexample :
    answer_question (fun _ => .ok [1]) (fun _ _ => .ok (("ans").toList))
        (("q").toList) [] 3
      = .ok (("ans").toList) := rfl

/-! ## Bounds on cosine similarity (C8) -/

/-- First-component sum of squares of a pair list. -/
def pairSqA (p : List (ℝ × ℝ)) : ℝ := (p.map fun q => q.1 * q.1).sum

/-- Second-component sum of squares of a pair list. -/
def pairSqB (p : List (ℝ × ℝ)) : ℝ := (p.map fun q => q.2 * q.2).sum

/-- Sum of products of a pair list. -/
def pairDot (p : List (ℝ × ℝ)) : ℝ := (p.map fun q => q.1 * q.2).sum

@[simp] theorem pairSqA_nil : pairSqA [] = 0 := rfl

@[simp] theorem pairSqB_nil : pairSqB [] = 0 := rfl

@[simp] theorem pairDot_nil : pairDot [] = 0 := rfl

@[simp] theorem pairSqA_cons (q : ℝ × ℝ) (p : List (ℝ × ℝ)) :
    pairSqA (q :: p) = q.1 * q.1 + pairSqA p := by simp [pairSqA]

@[simp] theorem pairSqB_cons (q : ℝ × ℝ) (p : List (ℝ × ℝ)) :
    pairSqB (q :: p) = q.2 * q.2 + pairSqB p := by simp [pairSqB]

@[simp] theorem pairDot_cons (q : ℝ × ℝ) (p : List (ℝ × ℝ)) :
    pairDot (q :: p) = q.1 * q.2 + pairDot p := by simp [pairDot]

@[simp] theorem sumSq_nil : sumSq [] = 0 := rfl

@[simp] theorem sumSq_cons (x : ℝ) (v : List ℝ) :
    sumSq (x :: v) = x * x + sumSq v := by simp [sumSq]

theorem pairSqB_nonneg (p : List (ℝ × ℝ)) : 0 ≤ pairSqB p := by
  apply List.sum_nonneg
  intro x hx
  obtain ⟨q, _, rfl⟩ := List.mem_map.mp hx
  exact mul_self_nonneg _

theorem sumSq_nonneg (v : List ℝ) : 0 ≤ sumSq v := by
  apply List.sum_nonneg
  intro x hx
  obtain ⟨y, _, rfl⟩ := List.mem_map.mp hx
  exact mul_self_nonneg _

/-- Expanding the sum of squares of `fst + t · snd` over a pair list. -/
theorem pair_quad_expand (t : ℝ) :
    ∀ p : List (ℝ × ℝ),
      (p.map fun q => (q.1 + t * q.2) * (q.1 + t * q.2)).sum
        = pairSqA p + 2 * t * pairDot p + t * t * pairSqB p := by
  intro p
  induction p with
  | nil => simp
  | cons q p ih =>
    simp only [List.map_cons, List.sum_cons, pairSqA_cons, pairSqB_cons,
      pairDot_cons]
    rw [ih]
    ring

theorem pair_quad_nonneg (t : ℝ) (p : List (ℝ × ℝ)) :
    0 ≤ pairSqA p + 2 * t * pairDot p + t * t * pairSqB p := by
  rw [← pair_quad_expand]
  apply List.sum_nonneg
  intro x hx
  obtain ⟨q, _, rfl⟩ := List.mem_map.mp hx
  exact mul_self_nonneg _

theorem pairDot_eq_zero_of_pairSqB_eq_zero :
    ∀ p : List (ℝ × ℝ), pairSqB p = 0 → pairDot p = 0 := by
  intro p
  induction p with
  | nil => intro _; rfl
  | cons q p ih =>
    intro h
    rw [pairSqB_cons] at h
    have hq : 0 ≤ q.2 * q.2 := mul_self_nonneg _
    have hp : 0 ≤ pairSqB p := pairSqB_nonneg p
    have hqz : q.2 = 0 := mul_self_eq_zero.mp (by linarith)
    rw [pairDot_cons, hqz, mul_zero, zero_add]
    exact ih (by linarith)

/-- Discrete Cauchy–Schwarz over a pair list, by the usual quadratic
    (discriminant) argument. -/
theorem pair_cauchy_schwarz (p : List (ℝ × ℝ)) :
    pairDot p * pairDot p ≤ pairSqA p * pairSqB p := by
  by_cases hB : pairSqB p = 0
  · rw [pairDot_eq_zero_of_pairSqB_eq_zero p hB, hB, mul_zero, mul_zero]
  · have hB0 : 0 ≤ pairSqB p := pairSqB_nonneg p
    have hBpos : 0 < pairSqB p := lt_of_le_of_ne hB0 (Ne.symm hB)
    have key := pair_quad_nonneg (-(pairDot p / pairSqB p)) p
    have hexp : pairSqA p + 2 * (-(pairDot p / pairSqB p)) * pairDot p
        + (-(pairDot p / pairSqB p)) * (-(pairDot p / pairSqB p)) * pairSqB p
        = pairSqA p - pairDot p * pairDot p / pairSqB p := by
      field_simp
      ring
    rw [hexp] at key
    have h2 : pairDot p * pairDot p / pairSqB p ≤ pairSqA p := by linarith
    calc pairDot p * pairDot p
        = pairDot p * pairDot p / pairSqB p * pairSqB p := by field_simp
      _ ≤ pairSqA p * pairSqB p := mul_le_mul_of_nonneg_right h2 hB0

theorem pairSqA_zip (v : List ℝ) :
    ∀ w : List ℝ, v.length = w.length → pairSqA (v.zip w) = sumSq v := by
  induction v with
  | nil => intro w _; rfl
  | cons a v ih =>
    intro w h
    cases w with
    | nil => simp at h
    | cons b w =>
      rw [List.zip_cons_cons, pairSqA_cons, sumSq_cons, ih w (by simpa using h)]

theorem pairSqB_zip (v : List ℝ) :
    ∀ w : List ℝ, v.length = w.length → pairSqB (v.zip w) = sumSq w := by
  induction v with
  | nil =>
    intro w h
    have : w = [] := List.length_eq_zero.mp (by simpa using h.symm)
    subst this
    rfl
  | cons a v ih =>
    intro w h
    cases w with
    | nil => simp at h
    | cons b w =>
      rw [List.zip_cons_cons, pairSqB_cons, sumSq_cons, ih w (by simpa using h)]

theorem dot_eq_pairDot (v w : List ℝ) : dot v w = pairDot (v.zip w) := rfl

/-- A successful cosine similarity lies in `[-1, 1]`. -/
theorem cosine_similarity_mem_Icc (v w : List ℝ) (s : ℝ)
    (h : cosine_similarity v w = .ok s) : -1 ≤ s ∧ s ≤ 1 := by
  unfold cosine_similarity at h
  split at h
  · cases h
  split at h
  · cases h
  rename_i hlen hmag
  injection h with hs
  subst hs
  have hlen2 : v.length = w.length := not_not.mp hlen
  have hA : 0 ≤ sumSq v := sumSq_nonneg v
  have hcs : dot v w * dot v w ≤ sumSq v * sumSq w := by
    have hp := pair_cauchy_schwarz (v.zip w)
    rw [pairSqA_zip v w hlen2, pairSqB_zip v w hlen2, ← dot_eq_pairDot] at hp
    exact hp
  have habs : |dot v w| ≤ vnorm v * vnorm w := by
    have h1 : vnorm v * vnorm w = Real.sqrt (sumSq v * sumSq w) := by
      rw [vnorm, vnorm, ← Real.sqrt_mul hA]
    rw [h1, ← Real.sqrt_mul_self_eq_abs]
    exact Real.sqrt_le_sqrt hcs
  have hM0 : 0 ≤ vnorm v * vnorm w :=
    mul_nonneg (Real.sqrt_nonneg _) (Real.sqrt_nonneg _)
  have hMpos : 0 < vnorm v * vnorm w := lt_of_le_of_ne hM0 (Ne.symm hmag)
  have hfin : |dot v w / (vnorm v * vnorm w)| ≤ 1 := by
    rw [abs_div, abs_of_pos hMpos]
    exact (div_le_one hMpos).mpr habs
  exact abs_le.mp hfin

/-- Claim C8, amended: every similarity score paired with a chunk during
    retrieval lies in `[-1, 1]` — cosine similarity's natural range, with
    the claimed lower bound corrected from `0` to `-1` (Cauchy–Schwarz
    bounds every successful `cosine_similarity` output). -/
theorem C8_scores_in_unit_interval (qe : List ℝ) :
    ∀ (chunks : List StoredChunk) (scored : List ScoredChunk),
      retrieveScored qe chunks = .ok scored →
      ∀ sc ∈ scored, -1 ≤ sc.score ∧ sc.score ≤ 1 := by
  intro chunks
  induction chunks with
  | nil =>
    intro scored h sc hsc
    cases h
    simp at hsc
  | cons c cs ih =>
    intro scored h sc hsc
    unfold retrieveScored at h
    split at h
    · cases h
    rename_i s hcos
    split at h
    · cases h
    rename_i rest hrest
    cases h
    rcases List.mem_cons.mp hsc with h1 | h1
    · subst h1
      exact cosine_similarity_mem_Icc qe c.embedding s hcos
    · exact ih rest hrest sc h1

/-- Helper for witnesses: concrete scoring of a one-chunk corpus whose
    embedding equals the query vector. -/
theorem retrieveScored_unit :
    retrieveScored [(1 : ℝ)] [⟨("u").toList, ("s").toList, 0, [1]⟩]
      = .ok [⟨⟨("u").toList, ("s").toList, 0, [1]⟩, 1⟩] := by
  unfold retrieveScored
  rw [show cosine_similarity [(1 : ℝ)]
        ((⟨("u").toList, ("s").toList, 0, [1]⟩ : StoredChunk).embedding)
      = .ok 1 from ?_]
  · rfl
  · rw [show ((⟨("u").toList, ("s").toList, 0, [1]⟩ :
        StoredChunk).embedding) = [(1 : ℝ)] from rfl]
    rw [cosine_similarity_single 1 1 one_ne_zero one_ne_zero]
    norm_num

/-- Witness for C8's amended theorem at a concrete retrieval. -/
theorem C8_scores_in_unit_interval_witness :
    -1 ≤ (⟨⟨("u").toList, ("s").toList, 0, [1]⟩, 1⟩ : ScoredChunk).score
      ∧ (⟨⟨("u").toList, ("s").toList, 0, [1]⟩, 1⟩ : ScoredChunk).score ≤ 1 :=
  C8_scores_in_unit_interval [1] [⟨("u").toList, ("s").toList, 0, [1]⟩]
    [⟨⟨("u").toList, ("s").toList, 0, [1]⟩, 1⟩] retrieveScored_unit
    ⟨⟨("u").toList, ("s").toList, 0, [1]⟩, 1⟩ (List.mem_singleton.mpr rfl)

/-- Claim C8 as stated is false at a concrete input: scoring the query
    vector `[1]` against a corpus whose single chunk has embedding `[-1]`
    pairs the chunk with the score `-1`, which lies outside `[0, 1]`. -/
theorem C8_counterexample :
    retrieveScored [(1 : ℝ)] [⟨("x").toList, ("s").toList, 0, [-1]⟩]
        = .ok [⟨⟨("x").toList, ("s").toList, 0, [-1]⟩, -1⟩]
      ∧ ((-1 : ℝ) < 0) := by
  refine ⟨?_, by norm_num⟩
  unfold retrieveScored
  rw [show cosine_similarity [(1 : ℝ)]
        ((⟨("x").toList, ("s").toList, 0, [-1]⟩ : StoredChunk).embedding)
      = .ok (-1) from ?_]
  · rfl
  · rw [show ((⟨("x").toList, ("s").toList, 0, [-1]⟩ :
        StoredChunk).embedding) = [(-1 : ℝ)] from rfl]
    rw [cosine_similarity_single 1 (-1) (by norm_num) (by norm_num)]
    norm_num

end InvoiceQA
